import Mathlib

/-!
# QuiltDealForge — outreach thread and campaign engine, shallowly embedded

A shallow embedding of the outreach-thread workflow of the QuiltDealForge
deal-sourcing CRM: the thread/message data model (apps/web/types/index.ts),
the client-side handlers of the company detail panel, drafts grid,
scheduling modal, follow-up panel and project CRM components, the sector
color lookup (apps/web/lib/constants.ts) and the sign-in domain gate
(apps/web/lib/auth.ts).  Backend endpoints that are not part of the
repository files (thread creation, message update, scheduling-reply
generation, bulk draft generation) are modelled from the specification's
words; each such definition carries a doc comment starting
"Modelled from the spec".

Timestamps are modelled as integer milliseconds since the epoch (the value
of `Date.getTime()` / `Date.now()` in the source).
-/

namespace QuiltDealForge

/-! ## Data model (apps/web/types/index.ts) -/

inductive ThreadStatus where
  | draft
  | sent
  | awaiting_response
  | responded
  | meeting_scheduled
  | passed
deriving DecidableEq, Repr

inductive MessageType where
  | initial
  | follow_up
  | scheduling_reply
deriving DecidableEq, Repr

inductive MessageStatus where
  | draft
  | approved
  | sent
  | failed
  | bounced
deriving DecidableEq, Repr

structure ProposedSlot where
  datetime : String
  label : String
deriving DecidableEq, Repr

structure OutreachThreadMessage where
  id : String
  thread_id : String
  sequence : Nat
  message_type : MessageType
  to_email : String
  subject : String
  body_html : String
  status : MessageStatus
  sent_at : Option Int
  error_message : Option String
deriving DecidableEq, Repr

structure OutreachThread where
  id : String
  project_id : String
  company_id : String
  contact_id : Option String
  status : ThreadStatus
  follow_up_count : Nat
  last_sent_at : Option Int
  response_received_at : Option Int
  response_summary : Option String
  proposed_slots : Option (List ProposedSlot)
  messages : List OutreachThreadMessage
deriving DecidableEq, Repr

/-! ## Sector colors (apps/web/lib/constants.ts) -/

/-- The KNOWN_SECTOR_COLORS record: known sectors get a specific color. -/
def KNOWN_SECTOR_COLORS : List (String × String) :=
  [("IVF", "bg-pink-100 text-pink-700"),
   ("SDIRA", "bg-emerald-100 text-emerald-700"),
   ("Accounting", "bg-cyan-100 text-cyan-700"),
   ("HOA", "bg-violet-100 text-violet-700"),
   ("RCM", "bg-amber-100 text-amber-700"),
   ("Defense", "bg-sky-100 text-sky-700"),
   ("Healthcare", "bg-rose-100 text-rose-700"),
   ("Dental", "bg-teal-100 text-teal-700"),
   ("Mental Health", "bg-indigo-100 text-indigo-700"),
   ("Technology", "bg-blue-100 text-blue-700"),
   ("Veterinary", "bg-lime-100 text-lime-700"),
   ("Physical Therapy", "bg-orange-100 text-orange-700"),
   ("Pharmacy", "bg-fuchsia-100 text-fuchsia-700"),
   ("Other", "bg-gray-100 text-gray-600")]

def FALLBACK_SECTOR_COLOR : String := "bg-gray-100 text-gray-600"

/-- getSectorColor: keyed lookup in the record, with the neutral fallback. -/
def getSectorColor (sector : String) : String :=
  match KNOWN_SECTOR_COLORS.lookup sector with
  | some c => c
  | none => FALLBACK_SECTOR_COLOR

/-! ## Sign-in gate (apps/web/lib/auth.ts) -/

def ALLOWED_DOMAIN : String := "quilt-cap.com"

structure OAuthProfile where
  email : Option String
deriving DecidableEq, Repr

/-- The signIn callback: reject unless the profile email (defaulting to the
empty string) ends with "@" followed by the allowed domain. -/
def signInCallback (profile : Option OAuthProfile) : Bool :=
  let email := (profile.bind OAuthProfile.email).getD ""
  if !(String.endsWith email ("@" ++ ALLOWED_DOMAIN)) then false else true

/-! ## Thread creation (client: CompanyDetailPanel.ensureThread; server:
modelled from the spec) -/

/-- ensureThread: when the panel already holds a thread for the pair, return
its id without issuing any request; otherwise POST /outreach/threads and
return the created thread's id.  The Bool records whether a creation request
was issued. -/
def ensureThread (held : Option OutreachThread)
    (createResp : Unit → OutreachThread) : String × Bool :=
  match held with
  | some t => (t.id, false)
  | none => ((createResp ()).id, true)

/-- Modelled from the spec: the backend POST /outreach/threads handler is not
among the repository files.  The spec requires "at most one open thread per
(project, company) pair — thread creation must be idempotent, returning the
existing thread if one exists for that pair rather than creating a
duplicate".  The store is the list of existing threads; a create call finds
the thread for the pair or appends a fresh one. -/
def createThread (store : List OutreachThread) (pid cid freshId : String) :
    OutreachThread × List OutreachThread :=
  match store.find? (fun t => t.project_id == pid && t.company_id == cid) with
  | some t => (t, store)
  | none =>
      let t : OutreachThread :=
        { id := freshId, project_id := pid, company_id := cid,
          contact_id := none, status := ThreadStatus.draft,
          follow_up_count := 0, last_sent_at := none,
          response_received_at := none, response_summary := none,
          proposed_slots := none, messages := [] }
      (t, store ++ [t])

/-! ## Message sequence invariant and latest-message selection
(client: CompanyDetailPanel; invariant: modelled from the spec) -/

/-- Modelled from the spec: the backend that assigns message `sequence`
numbers is not among the repository files.  The spec states "A message's
`sequence` values within a thread are strictly increasing with no gaps,
starting at 1" and that a thread's messages are ordered by `sequence`;
together these say the message at position i carries sequence i + 1. -/
def seqStartsAtOne (msgs : List OutreachThreadMessage) : Prop :=
  ∀ i : Fin msgs.length, (msgs.get i).sequence = i.val + 1

/-- latestMessage (CompanyDetailPanel): the last element of thread.messages,
or null when the list is empty. -/
def latestMessage (msgs : List OutreachThreadMessage) :
    Option OutreachThreadMessage :=
  if msgs.length = 0 then none else msgs.get? (msgs.length - 1)

/-! ## Follow-up classification (FollowUpPanel.tsx) -/

/-- daysSince: floor of the elapsed time in days, 0 when the date is null. -/
def daysSince (now : Int) (dateStr : Option Int) : Int :=
  match dateStr with
  | none => 0
  | some t => Int.fdiv (now - t) 86400000

/-- One insertion step of sorting by descending daysSince (the comparator
daysSince(b) - daysSince(a) of FollowUpPanel). -/
def insertByDays (now : Int) (t : OutreachThread) :
    List OutreachThread → List OutreachThread
  | [] => [t]
  | u :: rest =>
      if daysSince now u.last_sent_at ≤ daysSince now t.last_sent_at then
        t :: u :: rest
      else u :: insertByDays now t rest

/-- nfu.sort: oldest (largest daysSince) first. -/
def sortByUrgency (now : Int) : List OutreachThread → List OutreachThread
  | [] => []
  | t :: rest => insertByDays now t (sortByUrgency now rest)

def isNeedsFollowUpStatus (t : OutreachThread) : Bool :=
  t.status == ThreadStatus.awaiting_response || t.status == ThreadStatus.sent

/-- The useMemo of FollowUpPanel: partition the threads by status into
needs-follow-up, responded and meeting-scheduled groups, the first sorted by
urgency. -/
def categorizeThreads (now : Int) (threads : List OutreachThread) :
    List OutreachThread × List OutreachThread × List OutreachThread :=
  (sortByUrgency now (threads.filter isNeedsFollowUpStatus),
   threads.filter (fun t => t.status == ThreadStatus.responded),
   threads.filter (fun t => t.status == ThreadStatus.meeting_scheduled))

/-- isOverdue: days since last send is at least 5. -/
def isOverdue (now : Int) (t : OutreachThread) : Bool :=
  decide (5 ≤ daysSince now t.last_sent_at)

/-! ## Draft selection (CompanyDetailPanel) -/

/-- The findLast of the JavaScript array: the last element satisfying the
predicate. -/
def findLastP {α : Type} (p : α → Bool) : List α → Option α
  | [] => none
  | a :: rest =>
      match findLastP p rest with
      | some r => some r
      | none => if p a then some a else none

/-- initialDraft (CompanyDetailPanel): the first message whose type is
initial. -/
def initialDraft (msgs : List OutreachThreadMessage) :
    Option OutreachThreadMessage :=
  msgs.find? (fun m => m.message_type == MessageType.initial)

/-- The editor's message selection: the last draft-status message, else the
initial message, else null. -/
def editorSelectedMessage (msgs : List OutreachThreadMessage) :
    Option OutreachThreadMessage :=
  match findLastP (fun m => m.status == MessageStatus.draft) msgs with
  | some m => some m
  | none => initialDraft msgs

/-- handleSendMessage's selection: the initial-type message first, else the
latest message. -/
def sendSelectedMessage (msgs : List OutreachThreadMessage) :
    Option OutreachThreadMessage :=
  match initialDraft msgs with
  | some m => some m
  | none => latestMessage msgs

/-! ## Error taxonomy (spec section 7) -/

inductive OutreachError where
  | missingContact
  | insufficientSlots
  | invalidTransition
  | immutableState
  | missingCredential
  | externalService
  | notFound
deriving DecidableEq, Repr

/-! ## Scheduling modal (SchedulingModal) -/

structure Slot where
  date : String
  time : String
  label : String
deriving DecidableEq, Repr

/-- The modal's initial proposed-slots state: exactly two slots. -/
def initialSlots : List Slot :=
  [{ date := "", time := "10:00", label := "" },
   { date := "", time := "14:00", label := "" }]

/-- addSlot: a no-op once five slots are present, else append a fresh slot. -/
def addSlot (slots : List Slot) : List Slot :=
  if 5 ≤ slots.length then slots
  else slots ++ [{ date := "", time := "10:00", label := "" }]

/-- removeSlot: a no-op at two slots, else drop the slot at the index. -/
def removeSlot (slots : List Slot) (i : Nat) : List Slot :=
  if slots.length ≤ 2 then slots else slots.eraseIdx i

/-- updateSlot: replace one field of the slot at the index. -/
def updateSlot (slots : List Slot) (i : Nat) (f : Slot → Slot) : List Slot :=
  slots.mapIdx (fun j s => if j = i then f s else s)

/-- The operations the modal can apply to its proposed-slots state. -/
inductive SlotOp where
  | add
  | remove (i : Nat)
  | update (i : Nat) (f : Slot → Slot)

def applySlotOp (slots : List Slot) : SlotOp → List Slot
  | SlotOp.add => addSlot slots
  | SlotOp.remove i => removeSlot slots i
  | SlotOp.update i f => updateSlot slots i f

structure SchedulingRequest where
  proposed_slots : List ProposedSlot
deriving DecidableEq, Repr

/-- handleGenerate: keep the slots with a nonempty date, turn each into a
{datetime, label} pair (the label falling back to the formatted date/time),
and issue the generate-scheduling-reply request only when at least two
valid slots remain; with fewer, alert and make no request.  `fmt` stands for
the locale-dependent formatSlotLabel. -/
def handleGenerate (fmt : String → String → String) (slots : List Slot) :
    Option SchedulingRequest :=
  let valid := (slots.filter (fun s => s.date != "")).map
    (fun s => ({ datetime := s.date ++ "T" ++ s.time,
                 label := if s.label = "" then fmt s.date s.time else s.label } :
               ProposedSlot))
  if valid.length < 2 then none else some { proposed_slots := valid }

/-- Modelled from the spec: the backend generate-scheduling-reply handler is
not among the repository files.  Per the spec, a scheduling reply "must
incorporate proposedSlots, a list of 2–5 candidate datetime/label pairs
supplied by the caller; generation fails with InsufficientSlotsError if
fewer than 2 are given"; on success a new draft message is appended at the
next sequence.  `genSubject`/`genBody` stand for the text-generation
output. -/
def generateSchedulingReply (thread : OutreachThread)
    (slots : List ProposedSlot) (freshId toEmail genSubject genBody : String) :
    Except OutreachError (OutreachThread × OutreachThreadMessage) :=
  if slots.length < 2 then
    Except.error OutreachError.insufficientSlots
  else
    let m : OutreachThreadMessage :=
      { id := freshId, thread_id := thread.id,
        sequence := thread.messages.length + 1,
        message_type := MessageType.scheduling_reply,
        to_email := toEmail, subject := genSubject, body_html := genBody,
        status := MessageStatus.draft, sent_at := none, error_message := none }
    Except.ok ({ thread with messages := thread.messages ++ [m],
                             proposed_slots := some slots }, m)

/-! ## Message editing and the drafts grid (EmailDraftEditor, DraftsGrid) -/

/-- Modelled from the spec: the backend PATCH /outreach/messages/{id}
handler is not among the repository files.  "Edits via updateMessage
(messageId, \x7bsubject?, body_html?\x7d) are only valid while
status=draft|approved; attempting to edit a sent message fails with
ImmutableStateError." -/
def updateMessage (m : OutreachThreadMessage) (subj bodyHtml : Option String) :
    Except OutreachError OutreachThreadMessage :=
  if m.status = MessageStatus.draft ∨ m.status = MessageStatus.approved then
    Except.ok { m with subject := subj.getD m.subject,
                       body_html := bodyHtml.getD m.body_html }
  else Except.error OutreachError.immutableState

/-- EmailDraftEditor's isSent flag. -/
def editorIsSent (m : OutreachThreadMessage) : Bool :=
  m.status == MessageStatus.sent

/-- The action row (Save, Regenerate, Send) renders only when not sent. -/
def editorActionsVisible (m : OutreachThreadMessage) : Bool :=
  !(editorIsSent m)

/-- The subject input carries disabled={isSent}. -/
def editorSubjectDisabled (m : OutreachThreadMessage) : Bool :=
  editorIsSent m

/-- The body textarea renders only in edit mode and when not sent. -/
def editorBodyEditable (editMode : Bool) (m : OutreachThreadMessage) : Bool :=
  editMode && !(editorIsSent m)

structure GridRow where
  thread : OutreachThread
  message : OutreachThreadMessage
deriving DecidableEq, Repr

/-- DraftsGrid: a row is sendable — selectable and editable — only while
the message status is draft or approved. -/
def isSendable (m : OutreachThreadMessage) : Bool :=
  m.status == MessageStatus.draft || m.status == MessageStatus.approved

/-- DraftsGrid.selectAll: toggle between the empty selection and the ids of
every sendable row. -/
def selectAll (rows : List GridRow) (selected : List String) : List String :=
  let sendable := rows.filter (fun r => isSendable r.message)
  if selected.length = sendable.length then []
  else sendable.map (fun r => r.message.id)

/-- The row's edit affordance renders only for sendable rows. -/
def gridRowOffersEdit (m : OutreachThreadMessage) : Bool :=
  isSendable m

/-! ## Scheduling send flow (SchedulingModal.handleSend) -/

inductive ClientRequest where
  | sendMessage (messageId : String)
  | patchThreadStatus (threadId : String) (status : ThreadStatus)
deriving DecidableEq, Repr

/-- SchedulingModal.handleSend: nothing happens without a generated message
and a session; otherwise the send request is issued and the PATCH setting
the thread status to meeting_scheduled is issued exactly when the send
response was ok. -/
def schedulingHandleSend (generated : Option OutreachThreadMessage)
    (hasSession : Bool) (sendOk : Bool) (threadId : String) :
    List ClientRequest :=
  match generated, hasSession with
  | some m, true =>
      if sendOk then
        [ClientRequest.sendMessage m.id,
         ClientRequest.patchThreadStatus threadId ThreadStatus.meeting_scheduled]
      else [ClientRequest.sendMessage m.id]
  | _, _ => []

/-- Modelled from the spec: the backend send handler is not among the
repository files.  Per the spec, a successful send moves the thread to
sent/awaiting_response and sets last_sent_at; the sender never sets
meeting_scheduled itself ("this is a caller-driven transition, not
automatic"). -/
def threadAfterSend (t : OutreachThread) (now : Int) : OutreachThread :=
  { t with status := ThreadStatus.awaiting_response, last_sent_at := some now }

/-! ## Bulk draft generation (ProjectCRM.handleBulkGenerate; server:
modelled from the spec) -/

structure ContactSnapshot where
  id : Option String
  name : Option String
  email : Option String
deriving DecidableEq, Repr

structure EnrichmentStatusResponse where
  status : String
  contact : Option ContactSnapshot
deriving DecidableEq, Repr

structure ProjectCompanyEntry where
  company_id : String
  company_name : String
deriving DecidableEq, Repr

structure BulkGenerateRequest where
  project_id : String
  company_ids : List String
  message_type : MessageType
deriving DecidableEq, Repr

/-- The truthiness of the optional chain
enrichmentMap[c.company_id]?.contact?.email: false for a missing map entry,
a null contact, a null email, or the empty string. -/
def contactEmailTruthy (snapshot : Option EnrichmentStatusResponse) : Bool :=
  match (snapshot.bind EnrichmentStatusResponse.contact).bind
      ContactSnapshot.email with
  | some e => e != ""
  | none => false

/-- ProjectCRM.handleBulkGenerate: keep the companies whose enrichment
snapshot holds a usable (truthy) contact email; with none left, alert and
issue no request; otherwise POST bulk-generate with the filtered ids and
message_type initial. -/
def handleBulkGenerate (projectId : String)
    (companies : List ProjectCompanyEntry)
    (enrichmentMap : String → Option EnrichmentStatusResponse) :
    Option BulkGenerateRequest :=
  let enrichedCompanyIds :=
    (companies.filter
        (fun c => contactEmailTruthy (enrichmentMap c.company_id))).map
      (fun c => c.company_id)
  if enrichedCompanyIds.length = 0 then none
  else some { project_id := projectId, company_ids := enrichedCompanyIds,
              message_type := MessageType.initial }

structure BulkGenerateSummary where
  total : Nat
  generated : Nat
  skipped : Nat
  errors : Nat
deriving DecidableEq, Repr

/-- Whether a per-company draft attempt failed for lack of a usable contact
email. -/
def isMissingContact (r : Except OutreachError OutreachThreadMessage) : Bool :=
  match r with
  | Except.error OutreachError.missingContact => true
  | _ => false

/-- Modelled from the spec: the backend bulk-generate handler is not among
the repository files.  "for each company id, ensures a thread exists,
attempts generateDraft; a company without a usable contact email is counted
under skipped; any other drafting failure increments errors; success
increments generated."  `draftFor` stands for the per-company generateDraft
attempt; the second component collects the drafts actually created. -/
def bulkGenerate
    (draftFor : String → Except OutreachError OutreachThreadMessage) :
    List String → BulkGenerateSummary × List (String × OutreachThreadMessage)
  | [] => ({ total := 0, generated := 0, skipped := 0, errors := 0 }, [])
  | cid :: rest =>
      let r := bulkGenerate draftFor rest
      match draftFor cid with
      | Except.error OutreachError.missingContact =>
          ({ r.1 with total := r.1.total + 1, skipped := r.1.skipped + 1 }, r.2)
      | Except.error _ =>
          ({ r.1 with total := r.1.total + 1, errors := r.1.errors + 1 }, r.2)
      | Except.ok m =>
          ({ r.1 with total := r.1.total + 1, generated := r.1.generated + 1 },
           (cid, m) :: r.2)

/-- Concrete sample messages used by witnesses and counterexamples. -/
def sampleInitialSent : OutreachThreadMessage :=
  { id := "m1", thread_id := "t1", sequence := 1,
    message_type := MessageType.initial, to_email := "a@x.com",
    subject := "Intro", body_html := "<p>hello</p>",
    status := MessageStatus.sent, sent_at := some 0, error_message := none }

def sampleFollowUpDraft : OutreachThreadMessage :=
  { id := "m2", thread_id := "t1", sequence := 2,
    message_type := MessageType.follow_up, to_email := "a@x.com",
    subject := "Following up", body_html := "<p>ping</p>",
    status := MessageStatus.draft, sent_at := none, error_message := none }

/-! ## Supporting lemmas -/

theorem find?_append_of_none {α : Type} (p : α → Bool) (l1 l2 : List α)
    (h : l1.find? p = none) : (l1 ++ l2).find? p = l2.find? p := by
  induction l1 with
  | nil => simp
  | cons a l ih =>
      rw [List.cons_append]
      cases hpa : p a with
      | true =>
          rw [List.find?_cons_of_pos _ hpa] at h
          exact absurd h (by simp)
      | false =>
          have hpa' : ¬ p a = true := by simp [hpa]
          rw [List.find?_cons_of_neg _ hpa'] at h
          rw [List.find?_cons_of_neg _ hpa']
          exact ih h

theorem seqStartsAtOne_pairwise {msgs : List OutreachThreadMessage}
    (h : seqStartsAtOne msgs) :
    msgs.Pairwise (fun a b => a.sequence < b.sequence) := by
  rw [List.pairwise_iff_get]
  intro i j hij
  rw [h i, h j]
  omega

theorem mem_insertByDays (now : Int) (t x : OutreachThread)
    (l : List OutreachThread) :
    x ∈ insertByDays now t l ↔ x = t ∨ x ∈ l := by
  induction l with
  | nil => simp [insertByDays]
  | cons u rest ih =>
      unfold insertByDays
      by_cases hc : daysSince now u.last_sent_at ≤ daysSince now t.last_sent_at
      · simp [hc]
      · simp only [if_neg hc, List.mem_cons, ih]
        tauto

theorem mem_sortByUrgency (now : Int) (x : OutreachThread)
    (l : List OutreachThread) :
    x ∈ sortByUrgency now l ↔ x ∈ l := by
  induction l with
  | nil => simp [sortByUrgency]
  | cons t rest ih => simp [sortByUrgency, mem_insertByDays, ih]

theorem findLastP_eq_none {α : Type} (p : α → Bool) (l : List α)
    (h : findLastP p l = none) : ∀ a ∈ l, p a = false := by
  induction l with
  | nil => intro a ha; cases ha
  | cons a rest ih =>
      intro b hb
      unfold findLastP at h
      cases hrest : findLastP p rest with
      | some r => rw [hrest] at h; cases h
      | none =>
          rw [hrest] at h
          rcases List.mem_cons.mp hb with rfl | hbr
          · by_cases hpb : p b = true
            · rw [if_pos hpb] at h; cases h
            · simpa using hpb
          · exact ih hrest b hbr

theorem findLastP_max_sequence (p : OutreachThreadMessage → Bool)
    (msgs : List OutreachThreadMessage)
    (hsort : msgs.Pairwise (fun a b => a.sequence < b.sequence))
    (m : OutreachThreadMessage) (h : findLastP p msgs = some m) :
    p m = true ∧ m ∈ msgs ∧
      ∀ m2 ∈ msgs, p m2 = true → m2.sequence ≤ m.sequence := by
  induction msgs with
  | nil => cases h
  | cons a rest ih =>
      have ha : ∀ b ∈ rest, a.sequence < b.sequence :=
        (List.pairwise_cons.mp hsort).1
      have hp : rest.Pairwise (fun x y => x.sequence < y.sequence) :=
        (List.pairwise_cons.mp hsort).2
      unfold findLastP at h
      cases hrest : findLastP p rest with
      | some r =>
          rw [hrest] at h
          cases h
          obtain ⟨hpm, hmem, hmax⟩ := ih hp hrest
          refine ⟨hpm, List.mem_cons_of_mem _ hmem, ?_⟩
          intro m2 hm2 hpm2
          rcases List.mem_cons.mp hm2 with rfl | hm2r
          · exact Nat.le_of_lt (ha _ hmem)
          · exact hmax m2 hm2r hpm2
      | none =>
          rw [hrest] at h
          by_cases hpa : p a = true
          · rw [if_pos hpa] at h
            cases h
            refine ⟨hpa, List.mem_cons_self _ _, ?_⟩
            intro m2 hm2 hpm2
            rcases List.mem_cons.mp hm2 with rfl | hm2r
            · exact Nat.le_refl _
            · rw [findLastP_eq_none p rest hrest m2 hm2r] at hpm2
              cases hpm2
          · rw [if_neg hpa] at h
            cases h

theorem length_eraseIdx_bounds {α : Type} (l : List α) (i : Nat) :
    l.length - 1 ≤ (l.eraseIdx i).length ∧ (l.eraseIdx i).length ≤ l.length := by
  induction l generalizing i with
  | nil => simp [List.eraseIdx]
  | cons a rest ih =>
      cases i with
      | zero => simp [List.eraseIdx]
      | succ j =>
          simp only [List.eraseIdx, List.length_cons]
          have := ih j
          omega

theorem applySlotOp_bounds (s : List Slot) (op : SlotOp)
    (h2 : 2 ≤ s.length) (h5 : s.length ≤ 5) :
    2 ≤ (applySlotOp s op).length ∧ (applySlotOp s op).length ≤ 5 := by
  cases op with
  | add =>
      simp only [applySlotOp, addSlot]
      by_cases hc : 5 ≤ s.length
      · rw [if_pos hc]; exact ⟨h2, h5⟩
      · rw [if_neg hc]; simp; omega
  | remove i =>
      simp only [applySlotOp, removeSlot]
      by_cases hc : s.length ≤ 2
      · rw [if_pos hc]; exact ⟨h2, h5⟩
      · rw [if_neg hc]
        have := length_eraseIdx_bounds s i
        omega
  | update i f =>
      simp only [applySlotOp, updateSlot]
      simp
      omega

theorem slotOps_keep_bounds (ops : List SlotOp) (s : List Slot)
    (h2 : 2 ≤ s.length) (h5 : s.length ≤ 5) :
    2 ≤ (ops.foldl applySlotOp s).length ∧
      (ops.foldl applySlotOp s).length ≤ 5 := by
  induction ops generalizing s with
  | nil => exact ⟨h2, h5⟩
  | cons op rest ih =>
      have hstep := applySlotOp_bounds s op h2 h5
      exact ih (applySlotOp s op) hstep.1 hstep.2

theorem bulkGenerate_stats
    (draftFor : String → Except OutreachError OutreachThreadMessage)
    (ids : List String) :
    (bulkGenerate draftFor ids).1.total = ids.length ∧
    (bulkGenerate draftFor ids).1.skipped =
      (ids.filter (fun i => isMissingContact (draftFor i))).length ∧
    (bulkGenerate draftFor ids).2 =
      ids.filterMap (fun i =>
        match draftFor i with
        | Except.ok m => some (i, m)
        | Except.error _ => none) := by
  induction ids with
  | nil => exact ⟨rfl, rfl, rfl⟩
  | cons cid rest ih =>
      obtain ⟨iht, ihs, ihd⟩ := ih
      cases hd : draftFor cid with
      | ok m =>
          simp [bulkGenerate, hd, isMissingContact, List.filter_cons,
            List.filterMap_cons, iht, ihs, ihd]
      | error e =>
          cases e <;>
            simp [bulkGenerate, hd, isMissingContact, List.filter_cons,
              List.filterMap_cons, iht, ihs, ihd]

/-! ## Claim theorems -/

/-- C1: thread creation is idempotent.  Client side (ensureThread): a held
thread is returned as-is and no creation request is issued.  Server side
(createThread, modelled from the spec): a second create call for the same
(project, company) pair returns the thread the first call returned and
leaves the store unchanged — no duplicate is created. -/
theorem c1_thread_creation_idempotent :
    (∀ (t : OutreachThread) (f : Unit → OutreachThread),
        ensureThread (some t) f = (t.id, false)) ∧
    (∀ (f : Unit → OutreachThread),
        ensureThread none f = ((f ()).id, true)) ∧
    (∀ (store : List OutreachThread) (pid cid f1 f2 : String),
        createThread (createThread store pid cid f1).2 pid cid f2 =
          ((createThread store pid cid f1).1,
           (createThread store pid cid f1).2)) := by
  refine ⟨?_, ?_, ?_⟩
  · intro t f
    rfl
  · intro f
    rfl
  · intro store pid cid f1 f2
    cases h : store.find? (fun t => t.project_id == pid && t.company_id == cid) with
    | some t =>
        simp [createThread, h]
    | none =>
        simp only [createThread, h]
        rw [find?_append_of_none _ _ _ h]
        simp [List.find?]

/-- C9: sector is resolved by a total lookup-with-default: every string in
the known-sector table gets its specific color, every other string gets the
neutral fallback "bg-gray-100 text-gray-600"; no string is rejected. -/
theorem c9_sector_color_lookup_with_default (sector : String) :
    (∃ c, KNOWN_SECTOR_COLORS.lookup sector = some c ∧ getSectorColor sector = c) ∨
    (KNOWN_SECTOR_COLORS.lookup sector = none ∧
      getSectorColor sector = "bg-gray-100 text-gray-600") := by
  cases h : KNOWN_SECTOR_COLORS.lookup sector with
  | some c =>
      exact Or.inl ⟨c, rfl, by simp [getSectorColor, h]⟩
  | none =>
      exact Or.inr ⟨rfl, by simp [getSectorColor, h, FALLBACK_SECTOR_COLOR]⟩

/-- C10: sign-in is accepted exactly when the OAuth profile's email
(defaulting to the empty string when absent) ends with "@quilt-cap.com". -/
theorem c10_signIn_accepted_iff_allowed_domain (profile : Option OAuthProfile) :
    signInCallback profile = true ↔
      String.endsWith ((profile.bind OAuthProfile.email).getD "")
        "@quilt-cap.com" = true := by
  have hdom : ("@" ++ ALLOWED_DOMAIN : String) = "@quilt-cap.com" := by decide
  simp [signInCallback, hdom]

/-- C2: under the sequence invariant, messages are ordered with strictly
increasing sequence values, and taking the last element of thread.messages
(the client's latestMessage) yields a message whose sequence dominates every
message of the thread — so the client's selection of the latest message is
correct. -/
theorem c2_sequence_invariant_last_is_latest (msgs : List OutreachThreadMessage)
    (h : seqStartsAtOne msgs) :
    msgs.Pairwise (fun a b => a.sequence < b.sequence) ∧
    (∀ last m, latestMessage msgs = some last → m ∈ msgs →
        m.sequence ≤ last.sequence) ∧
    (msgs ≠ [] → ∃ last, latestMessage msgs = some last ∧
        last.sequence = msgs.length) := by
  have hlast : msgs.length ≠ 0 → ∃ hlt : msgs.length - 1 < msgs.length,
      latestMessage msgs = some (msgs.get ⟨msgs.length - 1, hlt⟩) ∧
      (msgs.get ⟨msgs.length - 1, hlt⟩).sequence = msgs.length := by
    intro h0
    have hlt : msgs.length - 1 < msgs.length := by omega
    refine ⟨hlt, ?_, ?_⟩
    · unfold latestMessage
      rw [if_neg h0, List.get?_eq_get hlt]
    · rw [h ⟨msgs.length - 1, hlt⟩]
      show msgs.length - 1 + 1 = msgs.length
      omega
  refine ⟨seqStartsAtOne_pairwise h, ?_, ?_⟩
  · intro last m hl hm
    have h0 : msgs.length ≠ 0 := by
      intro h0
      unfold latestMessage at hl
      rw [if_pos h0] at hl
      exact Option.noConfusion hl
    obtain ⟨hlt, heq, hseq⟩ := hlast h0
    rw [heq] at hl
    obtain ⟨i, hi⟩ := List.mem_iff_get.mp hm
    have hm_seq : m.sequence = i.val + 1 := by
      rw [← hi]; exact h i
    have hl_seq : last.sequence = msgs.length := by
      rw [← Option.some.inj hl]; exact hseq
    have := i.isLt
    omega
  · intro hne
    have h0 : msgs.length ≠ 0 := by
      simpa [List.length_eq_zero] using hne
    obtain ⟨hlt, heq, hseq⟩ := hlast h0
    exact ⟨_, heq, hseq⟩

theorem c2_sequence_invariant_witness :
    seqStartsAtOne [sampleInitialSent, sampleFollowUpDraft] ∧
    ([sampleInitialSent, sampleFollowUpDraft].Pairwise
        (fun a b => a.sequence < b.sequence) ∧
      (∀ last m,
          latestMessage [sampleInitialSent, sampleFollowUpDraft] = some last →
          m ∈ [sampleInitialSent, sampleFollowUpDraft] →
          m.sequence ≤ last.sequence) ∧
      ([sampleInitialSent, sampleFollowUpDraft] ≠ [] →
        ∃ last,
          latestMessage [sampleInitialSent, sampleFollowUpDraft] = some last ∧
          last.sequence = [sampleInitialSent, sampleFollowUpDraft].length)) :=
  have h : seqStartsAtOne [sampleInitialSent, sampleFollowUpDraft] := by
    intro i
    fin_cases i <;> rfl
  ⟨h, c2_sequence_invariant_last_is_latest _ h⟩

/-- C6: needs-follow-up is derived at read time: a thread lands in the
needs-follow-up group exactly when its status is sent or awaiting_response;
daysSince is the floor of elapsed days (0 for a null last_sent_at); a thread
is flagged overdue exactly when daysSince is at least 5, equivalently when
at least 5 full days of milliseconds have elapsed; a thread with null
last_sent_at is never overdue. -/
theorem c6_needs_follow_up_read_time_classification (now : Int)
    (threads : List OutreachThread) (t : OutreachThread) (ts : Int) :
    (t ∈ (categorizeThreads now threads).1 ↔
      t ∈ threads ∧ (t.status = ThreadStatus.sent ∨
                     t.status = ThreadStatus.awaiting_response)) ∧
    daysSince now none = 0 ∧
    daysSince now (some ts) = Int.fdiv (now - ts) 86400000 ∧
    (isOverdue now t = true ↔ 5 ≤ daysSince now t.last_sent_at) ∧
    (5 ≤ daysSince now (some ts) ↔ 5 * 86400000 ≤ now - ts) ∧
    (t.last_sent_at = none → isOverdue now t = false) := by
  have hfdiv : ∀ d : Int, 5 ≤ Int.fdiv d 86400000 ↔ 5 * 86400000 ≤ d := by
    intro d
    rw [Int.fdiv_eq_ediv d (by norm_num)]
    omega
  refine ⟨?_, rfl, rfl, ?_, ?_, ?_⟩
  · simp only [categorizeThreads, mem_sortByUrgency, List.mem_filter,
      isNeedsFollowUpStatus, Bool.or_eq_true, beq_iff_eq]
    tauto
  · simp [isOverdue]
  · exact hfdiv (now - ts)
  · intro hnone
    simp [isOverdue, daysSince, hnone]

/-- C3: the proposed-slots list starts at exactly 2 entries, addSlot is a
no-op at 5, removeSlot is a no-op at 2, and any sequence of modal
operations keeps the list between 2 and 5 entries; the client issues no
generation request when fewer than 2 valid (dated) slots remain; the
backend (modelled from the spec) fails with InsufficientSlotsError on fewer
than 2 proposed slots, producing no message, and succeeds otherwise. -/
theorem c3_scheduling_slots_bounds_and_insufficient (s : List Slot) (i : Nat)
    (ops : List SlotOp) (fmt : String → String → String)
    (thread : OutreachThread) (slots : List ProposedSlot)
    (freshId toEmail subj bodyHtml : String) :
    initialSlots.length = 2 ∧
    (5 ≤ s.length → addSlot s = s) ∧
    (s.length ≤ 2 → removeSlot s i = s) ∧
    (2 ≤ s.length → s.length ≤ 5 →
      2 ≤ (ops.foldl applySlotOp s).length ∧
        (ops.foldl applySlotOp s).length ≤ 5) ∧
    (handleGenerate fmt s = none ↔
      (s.filter (fun x => x.date != "")).length < 2) ∧
    (slots.length < 2 →
      generateSchedulingReply thread slots freshId toEmail subj bodyHtml =
        Except.error OutreachError.insufficientSlots) ∧
    (2 ≤ slots.length →
      ∃ t2 m, generateSchedulingReply thread slots freshId toEmail subj bodyHtml =
        Except.ok (t2, m) ∧ m.status = MessageStatus.draft ∧
        m.message_type = MessageType.scheduling_reply) := by
  refine ⟨rfl, ?_, ?_, slotOps_keep_bounds ops s, ?_, ?_, ?_⟩
  · intro h5
    simp [addSlot, h5]
  · intro h2
    simp [removeSlot, h2]
  · unfold handleGenerate
    by_cases hlt : ((s.filter (fun x => x.date != "")).map
        (fun x => ({ datetime := x.date ++ "T" ++ x.time,
                     label := if x.label = "" then fmt x.date x.time
                              else x.label } : ProposedSlot))).length < 2
    · simp only [if_pos hlt]
      simp only [List.length_map] at hlt
      simp [hlt]
    · simp only [if_neg hlt]
      simp only [List.length_map] at hlt
      simp [hlt]
  · intro hlt
    simp [generateSchedulingReply, hlt]
  · intro h2
    have hnot : ¬ slots.length < 2 := by omega
    simp only [generateSchedulingReply, if_neg hnot]
    exact ⟨_, _, rfl, rfl, rfl⟩

/-- C4: a sent message is immutable.  The backend updateMessage (modelled
from the spec) succeeds exactly while status is draft or approved and fails
with ImmutableStateError on a sent message; in the client, the draft editor
hides Save/Send/Regenerate and disables the inputs once the message is
sent, and the drafts grid offers edit and send selection only for
draft/approved rows. -/
theorem c4_sent_message_immutable (m : OutreachThreadMessage)
    (subj bodyHtml : Option String) (rows : List GridRow)
    (selected : List String) (mid : String) :
    (m.status = MessageStatus.sent →
      updateMessage m subj bodyHtml = Except.error OutreachError.immutableState) ∧
    ((m.status = MessageStatus.draft ∨ m.status = MessageStatus.approved) →
      ∃ m2, updateMessage m subj bodyHtml = Except.ok m2) ∧
    (m.status = MessageStatus.sent →
      editorActionsVisible m = false ∧ editorSubjectDisabled m = true ∧
        ∀ em, editorBodyEditable em m = false) ∧
    (mid ∈ selectAll rows selected →
      ∃ r, r ∈ rows ∧ r.message.id = mid ∧
        (r.message.status = MessageStatus.draft ∨
         r.message.status = MessageStatus.approved)) ∧
    (gridRowOffersEdit m = true ↔
      (m.status = MessageStatus.draft ∨ m.status = MessageStatus.approved)) := by
  refine ⟨?_, ?_, ?_, ?_, ?_⟩
  · intro hsent
    have hne : ¬ (m.status = MessageStatus.draft ∨ m.status = MessageStatus.approved) := by
      rw [hsent]; rintro (h | h) <;> cases h
    simp [updateMessage, hne]
  · intro hok
    have hupd : updateMessage m subj bodyHtml =
        Except.ok { m with subject := subj.getD m.subject,
                           body_html := bodyHtml.getD m.body_html } := by
      simp [updateMessage, hok]
    exact ⟨_, hupd⟩
  · intro hsent
    refine ⟨?_, ?_, ?_⟩
    · simp [editorActionsVisible, editorIsSent, hsent]
    · simp [editorSubjectDisabled, editorIsSent, hsent]
    · intro em
      simp [editorBodyEditable, editorIsSent, hsent]
  · intro hmem
    unfold selectAll at hmem
    by_cases hlen : selected.length =
        (rows.filter (fun r => isSendable r.message)).length
    · rw [if_pos hlen] at hmem
      cases hmem
    · rw [if_neg hlen] at hmem
      obtain ⟨r, hr, hid⟩ := List.mem_map.mp hmem
      obtain ⟨hrows, hsend⟩ := List.mem_filter.mp hr
      refine ⟨r, hrows, hid, ?_⟩
      simpa [isSendable] using hsend
  · simp [gridRowOffersEdit, isSendable]

/-- C7: the transition to meeting_scheduled is caller-driven: the scheduling
modal's handleSend issues the status patch exactly when the send request
returned success (and only after issuing the send request); with no
generated message or no session it issues nothing; and the modelled sender
itself leaves the thread in awaiting_response, never meeting_scheduled. -/
theorem c7_meeting_scheduled_caller_driven (m : OutreachThreadMessage)
    (tid : String) (hasSession sendOk : Bool) (t : OutreachThread) (now : Int) :
    (schedulingHandleSend none hasSession sendOk tid = []) ∧
    (schedulingHandleSend (some m) false sendOk tid = []) ∧
    (ClientRequest.patchThreadStatus tid ThreadStatus.meeting_scheduled ∈
        schedulingHandleSend (some m) true sendOk tid ↔ sendOk = true) ∧
    (ClientRequest.sendMessage m.id ∈
        schedulingHandleSend (some m) true sendOk tid) ∧
    ((threadAfterSend t now).status = ThreadStatus.awaiting_response) := by
  refine ⟨rfl, rfl, ?_, ?_, rfl⟩
  · cases sendOk <;> simp [schedulingHandleSend]
  · cases sendOk <;> simp [schedulingHandleSend]

/-- C5 counterexample: a thread whose initial message is already sent and
whose highest-sequence draft is a follow-up.  handleSendMessage
(initialDraft ?? latestMessage) selects the sent initial message, not the
highest-sequence draft-status message — so "the message selected ... for
sending is always the highest-sequence message whose status is draft" fails
on the code. -/
theorem c5_counterexample_send_picks_initial :
    sendSelectedMessage [sampleInitialSent, sampleFollowUpDraft] =
        some sampleInitialSent ∧
    sampleInitialSent.status = MessageStatus.sent ∧
    sampleFollowUpDraft.status = MessageStatus.draft ∧
    sampleInitialSent.sequence < sampleFollowUpDraft.sequence ∧
    seqStartsAtOne [sampleInitialSent, sampleFollowUpDraft] := by
  refine ⟨rfl, rfl, rfl, by decide, ?_⟩
  intro i
  fin_cases i <;> rfl

/-- C5 (amended): regeneration appends rather than mutates, and the editor's
selection messages.findLast(status === draft) is indeed the highest-sequence
draft-status message whenever a draft exists; but the message selected for
sending is the first initial-type message when one exists (initialDraft ??
latestMessage), falling back to the last message only when no initial-type
message is present. -/
theorem c5_editor_latest_draft_send_initial_first
    (msgs : List OutreachThreadMessage)
    (hsort : msgs.Pairwise (fun a b => a.sequence < b.sequence)) :
    (∀ m, findLastP (fun x => x.status == MessageStatus.draft) msgs = some m →
        editorSelectedMessage msgs = some m ∧ m.status = MessageStatus.draft ∧
        m ∈ msgs ∧
        ∀ m2 ∈ msgs, m2.status = MessageStatus.draft →
          m2.sequence ≤ m.sequence) ∧
    (∀ m, initialDraft msgs = some m → sendSelectedMessage msgs = some m) ∧
    (initialDraft msgs = none → sendSelectedMessage msgs = latestMessage msgs) := by
  refine ⟨?_, ?_, ?_⟩
  · intro m hfind
    obtain ⟨hpm, hmem, hmax⟩ :=
      findLastP_max_sequence (fun x => x.status == MessageStatus.draft)
        msgs hsort m hfind
    refine ⟨?_, by simpa using hpm, hmem, ?_⟩
    · unfold editorSelectedMessage
      rw [hfind]
    · intro m2 hm2 hst
      exact hmax m2 hm2 (by simp [hst])
  · intro m hinit
    unfold sendSelectedMessage
    rw [hinit]
  · intro hinit
    unfold sendSelectedMessage
    rw [hinit]

theorem c5_editor_latest_draft_witness :
    ([sampleInitialSent, sampleFollowUpDraft].Pairwise
        (fun a b => a.sequence < b.sequence)) ∧
    (∀ m, findLastP (fun x => x.status == MessageStatus.draft)
            [sampleInitialSent, sampleFollowUpDraft] = some m →
        editorSelectedMessage [sampleInitialSent, sampleFollowUpDraft] = some m ∧
        m.status = MessageStatus.draft ∧
        m ∈ [sampleInitialSent, sampleFollowUpDraft] ∧
        ∀ m2 ∈ [sampleInitialSent, sampleFollowUpDraft],
          m2.status = MessageStatus.draft → m2.sequence ≤ m.sequence) :=
  have hsort : ([sampleInitialSent, sampleFollowUpDraft].Pairwise
      (fun a b => a.sequence < b.sequence)) := by
    simp [sampleInitialSent, sampleFollowUpDraft]
  ⟨hsort,
   (c5_editor_latest_draft_send_initial_first
      [sampleInitialSent, sampleFollowUpDraft] hsort).1⟩

/-- C8: a company without a usable contact email never produces a draft.
Server side (bulkGenerate, modelled from the spec): total counts every id,
skipped counts exactly the ids whose draft attempt failed for a missing
contact, the drafts produced are exactly the successful attempts, and an id
whose attempt failed for a missing contact appears in no draft.  Client side
(handleBulkGenerate): no request is made when no company has a truthy
contact email, and every submitted id belongs to a company whose enrichment
snapshot has a non-null, nonempty contact email. -/
theorem c8_bulk_generate_skips_companies_without_email
    (draftFor : String → Except OutreachError OutreachThreadMessage)
    (ids : List String) (cid : String) (projectId : String)
    (companies : List ProjectCompanyEntry)
    (enrichmentMap : String → Option EnrichmentStatusResponse)
    (req : BulkGenerateRequest) (x : String) :
    ((bulkGenerate draftFor ids).1.total = ids.length) ∧
    ((bulkGenerate draftFor ids).1.skipped =
      (ids.filter (fun i => isMissingContact (draftFor i))).length) ∧
    (isMissingContact (draftFor cid) = true →
      ∀ p ∈ (bulkGenerate draftFor ids).2, p.1 ≠ cid) ∧
    (handleBulkGenerate projectId companies enrichmentMap = none ↔
      companies.filter
        (fun c => contactEmailTruthy (enrichmentMap c.company_id)) = []) ∧
    (handleBulkGenerate projectId companies enrichmentMap = some req →
      x ∈ req.company_ids →
      ∃ c, c ∈ companies ∧ c.company_id = x ∧
        ∃ e, ((enrichmentMap c.company_id).bind
            EnrichmentStatusResponse.contact).bind ContactSnapshot.email =
          some e ∧ e ≠ "") := by
  obtain ⟨ht, hs, hd⟩ := bulkGenerate_stats draftFor ids
  refine ⟨ht, hs, ?_, ?_, ?_⟩
  · intro hmiss p hp
    rw [hd] at hp
    obtain ⟨i, hi, hmatch⟩ := List.mem_filterMap.mp hp
    cases hdi : draftFor i with
    | ok m =>
        rw [hdi] at hmatch
        obtain rfl := Option.some.inj hmatch
        intro hic
        simp only at hic
        rw [hic] at hdi
        rw [hdi] at hmiss
        simp [isMissingContact] at hmiss
    | error e =>
        rw [hdi] at hmatch
        cases hmatch
  · by_cases hfil : companies.filter
        (fun c => contactEmailTruthy (enrichmentMap c.company_id)) = []
    · simp [handleBulkGenerate, hfil]
    · have hne : ¬ ((companies.filter
          (fun c => contactEmailTruthy (enrichmentMap c.company_id))).map
            (fun c => c.company_id)).length = 0 := by
        simp only [List.length_map, List.length_eq_zero]
        exact hfil
      simp [handleBulkGenerate, if_neg hne, hfil]
  · intro hreq hx
    simp only [handleBulkGenerate] at hreq
    split at hreq
    · cases hreq
    · obtain rfl := Option.some.inj hreq
      simp only [List.mem_map] at hx
      obtain ⟨c, hc, hcid⟩ := hx
      obtain ⟨hcomp, htru⟩ := List.mem_filter.mp hc
      refine ⟨c, hcomp, hcid, ?_⟩
      unfold contactEmailTruthy at htru
      cases hem : ((enrichmentMap c.company_id).bind
          EnrichmentStatusResponse.contact).bind ContactSnapshot.email with
      | some e =>
          rw [hem] at htru
          exact ⟨e, rfl, by simpa using htru⟩
      | none =>
          rw [hem] at htru
          cases htru

end QuiltDealForge
